import Mathlib

/-!
Shallow embedding of `src/count_matrix_generator.py` (function `simulate_counts`).

The generator is translated into pure Lean functions.  Real-valued parameters
and the sampled means are modelled as exact rationals (`ℚ`).  The numpy global
random stream is modelled by an abstract deterministic generator `RngModel`:
a state type (here `Nat`), a seeding function, and deterministic draw
functions for the three kinds of draws the program makes
(`np.random.choice`, `np.random.uniform`, `np.random.negative_binomial`),
together with the documented properties of those numpy primitives that the
program relies on (choice without replacement returns distinct in-range
indices; uniform stays within its bounds).  Every randomized step threads the
state explicitly and records an event trace, so that the order in which the
single stream is consumed is observable, including on failing runs.

Python exceptions (`ValueError` from the explicit `raise` and from the
numpy argument validation, `ZeroDivisionError` from `1.0 / dispersion`) are
modelled with `Except`; an error carries the trace of draws consumed before
the failure.
-/

/-- Error kinds raised by the program: Python `ValueError` (the explicit
gene-list `raise` and numpy argument validation) and Python
`ZeroDivisionError` (from `1.0 / dispersion` at `dispersion == 0`). -/
inductive GenError where
  | valueError (msg : String)
  | zeroDivisionError
  deriving DecidableEq

/-- One draw event on the single random stream: the DE-subset selection
(`np.random.choice`), one uniform baseline draw, or one negative-binomial
count draw. -/
inductive RngEvent where
  | choice (n k : Nat)
  | uniform (lo hi : ℚ)
  | negBinom (size p : ℚ)
  deriving DecidableEq

/-- Abstract deterministic model of the numpy global generator: state is a
`Nat`, seeding and every draw are functions of the state, and the numpy
primitives (as documented) that the program relies on are recorded as
properties. -/
structure RngModel where
  seedFn : Int → Nat
  choiceFn : Nat → Nat → Nat → List Nat × Nat
  uniformFn : Nat → ℚ → ℚ → ℚ × Nat
  negBinomFn : Nat → ℚ → ℚ → Nat × Nat
  choice_nodup : ∀ s n k, k ≤ n → (choiceFn s n k).1.Nodup
  choice_length : ∀ s n k, k ≤ n → (choiceFn s n k).1.length = k
  choice_lt : ∀ s n k, k ≤ n → ∀ i ∈ (choiceFn s n k).1, i < n
  uniform_mem : ∀ s lo hi, lo < hi →
    lo ≤ (uniformFn s lo hi).1 ∧ (uniformFn s lo hi).1 < hi

/-- The Python `int()` conversion applied to a real value: truncation
toward zero. -/
def pyInt (q : ℚ) : Int :=
  if q < 0 then ⌈q⌉ else ⌊q⌋

/-- Python float division, which raises `ZeroDivisionError` on a zero
denominator (used for `size = 1.0 / dispersion`). -/
def pyDiv (a b : ℚ) : Except GenError ℚ :=
  if b = 0 then Except.error GenError.zeroDivisionError else Except.ok (a / b)

/-- Division of numpy float scalars (`size / (size + mu)`), which does not
raise: a zero denominator yields a non-finite value, modelled as `none`. -/
def npDiv (a b : ℚ) : Option ℚ :=
  if b = 0 then none else some (a / b)

/-- Python truthiness of the optional `gene_list` argument: `None` and the
empty list are both falsy. -/
def pyTruthy : Option (List String) → Bool
  | none => false
  | some l => !l.isEmpty

/-- Synthetic gene names `gene_1 .. gene_n`. -/
def defaultGeneNames (n : Nat) : List String :=
  (List.range n).map (fun i => "gene_" ++ toString (i + 1))

/-- The message of the gene-list `ValueError` raised by the program. -/
def geneListMsg (avail req : Nat) : String :=
  "Gene list contains only " ++ toString avail ++
    " names, fewer than n_genes=" ++ toString req ++ "."

/-- Gene-name computation (lines 14-21 of the source): a truthy `gene_list`
is length-checked and truncated; otherwise synthetic names are generated. -/
def computeGenes (n : Nat) (gl : Option (List String)) :
    Except GenError (List String) :=
  if pyTruthy gl then
    let l := gl.getD []
    if l.length < n then
      Except.error (GenError.valueError (geneListMsg l.length n))
    else Except.ok (l.take n)
  else Except.ok (defaultGeneNames n)

/-- Control sample names `ctrl_1 .. ctrl_k`. -/
def ctrlNames (k : Nat) : List String :=
  (List.range k).map (fun i => "ctrl_" ++ toString (i + 1))

/-- Treatment sample names `trt_1 .. trt_m`. -/
def trtNames (m : Nat) : List String :=
  (List.range m).map (fun i => "trt_" ++ toString (i + 1))

/-- The value `int(n_genes * de_prop)` computed at line 32 of the source. -/
def deCountInt (n_genes : Nat) (de_prop : ℚ) : Int :=
  pyInt ((n_genes : ℚ) * de_prop)

/-- Draw `count` uniform values on `[lo, hi)` from the stream, one event per
draw (models the vectorized `np.random.uniform(50, 2000, size=n_genes)`). -/
def drawUniforms (M : RngModel) (lo hi : ℚ) :
    Nat → Nat → List ℚ × Nat × List RngEvent
  | 0, s => ([], s, [])
  | n + 1, s =>
    let d := M.uniformFn s lo hi
    let rest := drawUniforms M lo hi n d.2
    (d.1 :: rest.1, rest.2.1, RngEvent.uniform lo hi :: rest.2.2)

/-- Draw `count` negative-binomial values from the stream, one event per
draw. -/
def drawNegBinomList (M : RngModel) (size p : ℚ) :
    Nat → Nat → List Nat × Nat × List RngEvent
  | 0, s => ([], s, [])
  | n + 1, s =>
    let d := M.negBinomFn s size p
    let rest := drawNegBinomList M size p n d.2
    (d.1 :: rest.1, rest.2.1, RngEvent.negBinom size p :: rest.2.2)

/-- Message of the `ValueError` numpy raises for invalid
`negative_binomial` arguments. -/
def nbErrMsg : String := "negative_binomial: invalid arguments"

/-- One call `np.random.negative_binomial(size, p, size=count)`: numpy
validates its arguments (`n > 0`, `p` finite with `0 <= p <= 1`) and raises
`ValueError` before drawing anything if they are invalid. -/
def drawNegBinoms (M : RngModel) (size : ℚ) (pOpt : Option ℚ) (count s : Nat) :
    Except GenError (List Nat × Nat × List RngEvent) :=
  match pOpt with
  | none => Except.error (GenError.valueError nbErrMsg)
  | some p =>
    if 0 < size ∧ 0 ≤ p ∧ p ≤ 1 then
      Except.ok (drawNegBinomList M size p count s)
    else Except.error (GenError.valueError nbErrMsg)

/-- One iteration of the per-gene loop (lines 53-59 of the source): compute
`p_ctrl` and `p_trt`, then draw all control columns, then all treatment
columns.  An error carries the events already consumed inside this gene. -/
def genRow (M : RngModel) (size muC muT : ℚ) (nc nt : Nat) (s : Nat) :
    Except (GenError × List RngEvent) (List Nat × Nat × List RngEvent) :=
  let pC := npDiv size (size + muC)
  let pT := npDiv size (size + muT)
  match drawNegBinoms M size pC nc s with
  | Except.error e => Except.error (e, [])
  | Except.ok (cs, s1, t1) =>
    match drawNegBinoms M size pT nt s1 with
    | Except.error e => Except.error (e, t1)
    | Except.ok (ts, s2, t2) => Except.ok (cs ++ ts, s2, t1 ++ t2)

/-- The whole per-gene loop, over the list of `(mu_ctrl[i], mu_trt[i])`
pairs in gene order.  An error carries the events consumed up to the
failure. -/
def genRows (M : RngModel) (size : ℚ) (nc nt : Nat) :
    List (ℚ × ℚ) → Nat →
    Except (GenError × List RngEvent) (List (List Nat) × Nat × List RngEvent)
  | [], s => Except.ok ([], s, [])
  | (muC, muT) :: rest, s =>
    match genRow M size muC muT nc nt s with
    | Except.error e => Except.error e
    | Except.ok (row, s1, t1) =>
      match genRows M size nc nt rest s1 with
      | Except.error (e, t2) => Except.error (e, t1 ++ t2)
      | Except.ok (rows, s2, t2) => Except.ok (row :: rows, s2, t1 ++ t2)

/-- The numpy fancy-indexed in-place update `mu[idxs] *= c` / `mu[idxs] /= c`:
apply `f` at each listed position of the list. -/
def scaleAt (mu : List ℚ) (idxs : List Nat) (f : ℚ → ℚ) : List ℚ :=
  idxs.foldl (fun acc g => acc.set g (f (acc.getD g 0))) mu

/-- The treatment-mean vector of lines 40-45 of the source: copy `mu_ctrl`,
multiply the first `half` selected indices by the fold change, divide the
remaining selected indices by it. -/
def muTrtOf (mu_ctrl : List ℚ) (de_indices : List Nat) (half : Nat)
    (fold_change : ℚ) : List ℚ :=
  scaleAt (scaleAt mu_ctrl (de_indices.take half) (fun x => x * fold_change))
    (de_indices.drop half) (fun x => x / fold_change)

/-- Tab-separated serialization as written by `DataFrame.to_csv(sep="\t")`
with a nameless index: blank header cell, sample columns, then one line per
gene. -/
def serializeTable (genes cols : List String) (rows : List (List Nat)) :
    String :=
  let header := String.intercalate "\t" ("" :: cols)
  let lines := (genes.zip rows).map
    (fun gr => String.intercalate "\t" (gr.1 :: gr.2.map toString))
  String.intercalate "\n" (header :: lines) ++ "\n"

/-- Everything a successful run produces (including the serialized output
table and the consumed-draw trace). -/
structure SimResult where
  genes : List String
  ctrlSamples : List String
  trtSamples : List String
  deIndices : List Nat
  muCtrl : List ℚ
  muTrt : List ℚ
  counts : List (List Nat)
  output : String
  trace : List RngEvent
  deriving DecidableEq, Inhabited

/-- The embedding of `simulate_counts` (lines 7-66 of the source).  `g0` is
the numpy global generator state as it happens to be before the call; the
first action of the program, `np.random.seed(seed)`, replaces it.  Errors
carry the trace of draws consumed before the failure; on success no file
write can fail in the model, and `output` is the serialized table. -/
def simulateCounts (M : RngModel) (g0 : Nat)
    (n_genes n_ctrl n_trt : Nat) (de_prop fold_change dispersion : ℚ)
    (seed : Int) (gene_list : Option (List String)) :
    Except (GenError × List RngEvent) SimResult :=
  let _ := g0
  let s0 := M.seedFn seed
  match computeGenes n_genes gene_list with
  | Except.error e => Except.error (e, [])
  | Except.ok genes =>
    let ctrl_samples := ctrlNames n_ctrl
    let trt_samples := trtNames n_trt
    let nde_int := deCountInt n_genes de_prop
    if 0 ≤ nde_int ∧ nde_int.toNat ≤ n_genes then
      let n_de := nde_int.toNat
      let ch := M.choiceFn s0 n_genes n_de
      let de_indices := ch.1
      let u := drawUniforms M 50 2000 n_genes ch.2
      let mu_ctrl := u.1
      let half := n_de / 2
      let mu_trt := muTrtOf mu_ctrl de_indices half fold_change
      match pyDiv 1 dispersion with
      | Except.error e =>
        Except.error (e, RngEvent.choice n_genes n_de :: u.2.2)
      | Except.ok size =>
        match genRows M size n_ctrl n_trt (mu_ctrl.zip mu_trt) u.2.1 with
        | Except.error (e, tR) =>
          Except.error (e, RngEvent.choice n_genes n_de :: u.2.2 ++ tR)
        | Except.ok (counts, _, tR) =>
          Except.ok
            { genes := genes
              ctrlSamples := ctrl_samples
              trtSamples := trt_samples
              deIndices := de_indices
              muCtrl := mu_ctrl
              muTrt := mu_trt
              counts := counts
              output := serializeTable genes (ctrl_samples ++ trt_samples)
                counts
              trace := RngEvent.choice n_genes n_de :: u.2.2 ++ tR }
    else
      Except.error
        (GenError.valueError "np.random.choice: invalid sample size", [])

/-- A concrete instance of the generator model, used to evaluate the
embedding on explicit inputs: `choice` returns the first `k` indices,
`uniform` returns the lower bound, `negative_binomial` returns 0. -/
def demoModel : RngModel where
  seedFn := fun s => s.toNat
  choiceFn := fun s _ k => (List.range k, s + 1)
  uniformFn := fun s lo _ => (lo, s + 1)
  negBinomFn := fun s _ _ => (0, s + 1)
  choice_nodup := fun _ _ k _ => List.nodup_range k
  choice_length := fun _ _ k _ => List.length_range k
  choice_lt := fun _ _ _ hk _i hi =>
    lt_of_lt_of_le (List.mem_range.mp hi) hk
  uniform_mem := fun _ lo _ h => ⟨le_refl lo, h⟩

/-- The full result of the concrete run
`simulate_counts(3, 1, 1, 1.0, 2.0, 1.0, 0)` under `demoModel`: all three
genes are selected as DE, the first (`half = 3 // 2 = 1`) is upregulated and
the remaining two are downregulated. -/
def resA : SimResult :=
  { genes := ["gene_1", "gene_2", "gene_3"]
    ctrlSamples := ["ctrl_1"]
    trtSamples := ["trt_1"]
    deIndices := [0, 1, 2]
    muCtrl := [50, 50, 50]
    muTrt := [100, 25, 25]
    counts := [[0, 0], [0, 0], [0, 0]]
    output := "\tctrl_1\ttrt_1\ngene_1\t0\t0\ngene_2\t0\t0\ngene_3\t0\t0\n"
    trace := [RngEvent.choice 3 3, RngEvent.uniform 50 2000,
      RngEvent.uniform 50 2000, RngEvent.uniform 50 2000,
      RngEvent.negBinom 1 (1/51), RngEvent.negBinom 1 (1/101),
      RngEvent.negBinom 1 (1/51), RngEvent.negBinom 1 (1/26),
      RngEvent.negBinom 1 (1/51), RngEvent.negBinom 1 (1/26)] }

/-- The full result of the concrete run
`simulate_counts(1, 1, 1, 0.0, 2.0, 1.0, 0)` under `demoModel`: no DE genes,
so the treatment means equal the control means. -/
def resB : SimResult :=
  { genes := ["gene_1"]
    ctrlSamples := ["ctrl_1"]
    trtSamples := ["trt_1"]
    deIndices := []
    muCtrl := [50]
    muTrt := [50]
    counts := [[0, 0]]
    output := "\tctrl_1\ttrt_1\ngene_1\t0\t0\n"
    trace := [RngEvent.choice 1 0, RngEvent.uniform 50 2000,
      RngEvent.negBinom 1 (1/51), RngEvent.negBinom 1 (1/51)] }

theorem scaleAt_nil (mu : List ℚ) (f : ℚ → ℚ) : scaleAt mu [] f = mu := rfl

theorem scaleAt_cons (mu : List ℚ) (i : Nat) (rest : List Nat) (f : ℚ → ℚ) :
    scaleAt mu (i :: rest) f = scaleAt (mu.set i (f (mu.getD i 0))) rest f :=
  rfl

theorem scaleAt_length (f : ℚ → ℚ) :
    ∀ (idxs : List Nat) (mu : List ℚ), (scaleAt mu idxs f).length = mu.length := by
  intro idxs
  induction idxs with
  | nil => intro mu; rfl
  | cons i rest ih =>
    intro mu
    rw [scaleAt_cons, ih, List.length_set]

theorem scaleAt_getD_not_mem (f : ℚ → ℚ) :
    ∀ (idxs : List Nat) (mu : List ℚ) (g : Nat), g ∉ idxs →
      (scaleAt mu idxs f).getD g 0 = mu.getD g 0 := by
  intro idxs
  induction idxs with
  | nil => intro mu g _; rfl
  | cons i rest ih =>
    intro mu g hg
    have hgi : g ≠ i := fun h => hg (h ▸ List.mem_cons_self i rest)
    have hgr : g ∉ rest := fun h => hg (List.mem_cons_of_mem i h)
    rw [scaleAt_cons, ih _ _ hgr]
    simp [List.getD_eq_getElem?_getD, List.getElem?_set_ne (Ne.symm hgi)]

theorem scaleAt_getD_mem (f : ℚ → ℚ) :
    ∀ (idxs : List Nat) (mu : List ℚ) (g : Nat), idxs.Nodup → g ∈ idxs →
      g < mu.length → (scaleAt mu idxs f).getD g 0 = f (mu.getD g 0) := by
  intro idxs
  induction idxs with
  | nil => intro mu g _ hg _; exact absurd hg (List.not_mem_nil g)
  | cons i rest ih =>
    intro mu g hnd hg hlt
    have hir : i ∉ rest := (List.nodup_cons.mp hnd).1
    have hndr : rest.Nodup := (List.nodup_cons.mp hnd).2
    rcases List.mem_cons.mp hg with hgi | hgr
    · subst hgi
      rw [scaleAt_cons, scaleAt_getD_not_mem f rest _ _ hir]
      simp [List.getD_eq_getElem?_getD, List.getElem?_set_self hlt]
    · have hgi : g ≠ i := fun h => hir (h ▸ hgr)
      rw [scaleAt_cons, ih _ _ hndr hgr (by rw [List.length_set]; exact hlt)]
      simp [List.getD_eq_getElem?_getD, List.getElem?_set_ne (Ne.symm hgi)]

theorem muTrtOf_length (mu : List ℚ) (de : List Nat) (half : Nat) (fc : ℚ) :
    (muTrtOf mu de half fc).length = mu.length := by
  simp [muTrtOf, scaleAt_length]

theorem muTrtOf_getD (mu : List ℚ) (de : List Nat) (half : Nat) (fc : ℚ)
    (hnd : de.Nodup) (g : Nat) (hg : g < mu.length) :
    (muTrtOf mu de half fc).getD g 0 =
      if g ∈ de.take half then mu.getD g 0 * fc
      else if g ∈ de.drop half then mu.getD g 0 / fc
      else mu.getD g 0 := by
  have hsplit : de.take half ++ de.drop half = de := List.take_append_drop half de
  have hnd2 : (de.take half ++ de.drop half).Nodup := by rw [hsplit]; exact hnd
  have hdisj : (de.take half).Disjoint (de.drop half) :=
    (List.nodup_append.mp hnd2).2.2
  have hndt : (de.take half).Nodup := (List.nodup_append.mp hnd2).1
  have hndd : (de.drop half).Nodup := (List.nodup_append.mp hnd2).2.1
  by_cases ht : g ∈ de.take half
  · have hd : g ∉ de.drop half := hdisj ht
    rw [if_pos ht, muTrtOf, scaleAt_getD_not_mem _ _ _ _ hd,
      scaleAt_getD_mem _ _ _ _ hndt ht hg]
  · rw [if_neg ht]
    by_cases hd : g ∈ de.drop half
    · rw [if_pos hd, muTrtOf,
        scaleAt_getD_mem _ _ _ _ hndd hd (by rw [scaleAt_length]; exact hg),
        scaleAt_getD_not_mem _ _ _ _ ht]
    · rw [if_neg hd, muTrtOf, scaleAt_getD_not_mem _ _ _ _ hd,
        scaleAt_getD_not_mem _ _ _ _ ht]

theorem countP_range_of_nodup (l : List Nat) (n : Nat) (hnd : l.Nodup)
    (hlt : ∀ x ∈ l, x < n) :
    (List.range n).countP (fun g => decide (g ∈ l)) = l.length := by
  rw [List.countP_eq_length_filter]
  have hperm : ((List.range n).filter (fun g => decide (g ∈ l))).Perm l := by
    rw [List.perm_ext_iff_of_nodup ((List.nodup_range n).filter _) hnd]
    intro a
    simp only [List.mem_filter, List.mem_range, decide_eq_true_eq]
    exact ⟨fun h => h.2, fun h => ⟨hlt a h, h⟩⟩
  exact hperm.length_eq

theorem drawUniforms_length (M : RngModel) (lo hi : ℚ) :
    ∀ (n s : Nat), ((drawUniforms M lo hi n s).1).length = n := by
  intro n
  induction n with
  | zero => intro s; rfl
  | succ k ih => intro s; simp [drawUniforms, ih]

theorem drawUniforms_trace (M : RngModel) (lo hi : ℚ) :
    ∀ (n s : Nat),
      (drawUniforms M lo hi n s).2.2 = List.replicate n (RngEvent.uniform lo hi) := by
  intro n
  induction n with
  | zero => intro s; rfl
  | succ k ih => intro s; simp [drawUniforms, ih, List.replicate_succ]

theorem drawUniforms_mem (M : RngModel) (lo hi : ℚ) (h : lo < hi) :
    ∀ (n s : Nat), ∀ x ∈ (drawUniforms M lo hi n s).1, lo ≤ x ∧ x < hi := by
  intro n
  induction n with
  | zero => intro s x hx; simp [drawUniforms] at hx
  | succ k ih =>
    intro s x hx
    simp only [drawUniforms, List.mem_cons] at hx
    rcases hx with hx | hx
    · subst hx; exact M.uniform_mem s lo hi h
    · exact ih _ x hx

theorem drawNegBinomList_length (M : RngModel) (size p : ℚ) :
    ∀ (n s : Nat), ((drawNegBinomList M size p n s).1).length = n := by
  intro n
  induction n with
  | zero => intro s; rfl
  | succ k ih => intro s; simp [drawNegBinomList, ih]

theorem drawNegBinomList_trace (M : RngModel) (size p : ℚ) :
    ∀ (n s : Nat),
      (drawNegBinomList M size p n s).2.2 =
        List.replicate n (RngEvent.negBinom size p) := by
  intro n
  induction n with
  | zero => intro s; rfl
  | succ k ih => intro s; simp [drawNegBinomList, ih, List.replicate_succ]

theorem genRow_ok {M : RngModel} {size muC muT : ℚ} {nc nt s : Nat}
    {row : List Nat} {s2 : Nat} {tr : List RngEvent}
    (h : genRow M size muC muT nc nt s = Except.ok (row, s2, tr)) :
    size + muC ≠ 0 ∧ size + muT ≠ 0 ∧ row.length = nc + nt ∧
      tr = List.replicate nc (RngEvent.negBinom size (size / (size + muC))) ++
        List.replicate nt (RngEvent.negBinom size (size / (size + muT))) := by
  by_cases hC : size + muC = 0
  · simp [genRow, npDiv, drawNegBinoms, hC] at h
  · by_cases hPC : 0 < size ∧ 0 ≤ size / (size + muC) ∧ size / (size + muC) ≤ 1
    · by_cases hT : size + muT = 0
      · simp [genRow, npDiv, drawNegBinoms, hC, hPC, hT] at h
      · by_cases hPT :
            0 < size ∧ 0 ≤ size / (size + muT) ∧ size / (size + muT) ≤ 1
        · simp only [genRow, npDiv, drawNegBinoms, if_neg hC, if_neg hT,
            if_pos hPC, if_pos hPT, Except.ok.injEq, Prod.mk.injEq] at h
          obtain ⟨h1, _, h3⟩ := h
          subst h1
          subst h3
          exact ⟨hC, hT, by simp [drawNegBinomList_length],
            by simp [drawNegBinomList_trace]⟩
        · have hQT : ¬(0 ≤ size / (size + muT) ∧ size / (size + muT) ≤ 1) :=
            fun hq => hPT ⟨hPC.1, hq⟩
          simp [genRow, npDiv, drawNegBinoms, hC, hPC, hT, hQT] at h
    · simp [genRow, npDiv, drawNegBinoms, hC, hPC] at h

theorem genRow_ok_of (M : RngModel) {size muC muT : ℚ} (nc nt s : Nat)
    (hsize : 0 < size) (hC : 0 < muC) (hT : 0 < muT) :
    ∃ v, genRow M size muC muT nc nt s = Except.ok v := by
  have hCne : size + muC ≠ 0 := ne_of_gt (by linarith)
  have hTne : size + muT ≠ 0 := ne_of_gt (by linarith)
  have hPC : 0 < size ∧ 0 ≤ size / (size + muC) ∧ size / (size + muC) ≤ 1 :=
    ⟨hsize, le_of_lt (div_pos hsize (by linarith)),
      by rw [div_le_one (by linarith)]; linarith⟩
  have hPT : 0 < size ∧ 0 ≤ size / (size + muT) ∧ size / (size + muT) ≤ 1 :=
    ⟨hsize, le_of_lt (div_pos hsize (by linarith)),
      by rw [div_le_one (by linarith)]; linarith⟩
  cases hx : genRow M size muC muT nc nt s with
  | ok v => exact ⟨v, rfl⟩
  | error e =>
    exfalso
    simp only [genRow, npDiv, drawNegBinoms, if_neg hCne, if_neg hTne,
      if_pos hPC, if_pos hPT] at hx
    exact Except.noConfusion hx

theorem genRows_ok {M : RngModel} {size : ℚ} {nc nt : Nat} :
    ∀ {pairs : List (ℚ × ℚ)} {s : Nat} {rows : List (List Nat)} {s2 : Nat}
      {tr : List RngEvent},
      genRows M size nc nt pairs s = Except.ok (rows, s2, tr) →
      rows.length = pairs.length ∧ (∀ r ∈ rows, r.length = nc + nt) ∧
        tr = (pairs.map (fun q =>
          List.replicate nc (RngEvent.negBinom size (size / (size + q.1))) ++
          List.replicate nt
            (RngEvent.negBinom size (size / (size + q.2))))).flatten := by
  intro pairs
  induction pairs with
  | nil =>
    intro s rows s2 tr h
    simp only [genRows, Except.ok.injEq, Prod.mk.injEq] at h
    obtain ⟨h1, _, h3⟩ := h
    subst h1
    subst h3
    simp
  | cons q rest ih =>
    intro s rows s2 tr h
    obtain ⟨muC, muT⟩ := q
    cases hrow : genRow M size muC muT nc nt s with
    | error e => simp [genRows, hrow] at h
    | ok v =>
      obtain ⟨row, s1, t1⟩ := v
      cases hrest : genRows M size nc nt rest s1 with
      | error e2 =>
        obtain ⟨e, t2⟩ := e2
        simp [genRows, hrow, hrest] at h
      | ok w =>
        obtain ⟨rows2, s3, t2⟩ := w
        simp only [genRows, hrow, hrest, Except.ok.injEq, Prod.mk.injEq] at h
        obtain ⟨h1, _, h3⟩ := h
        subst h1
        subst h3
        obtain ⟨_, _, hlen, htr⟩ := genRow_ok hrow
        obtain ⟨ih1, ih2, ih3⟩ := ih hrest
        refine ⟨by simp [ih1], ?_, ?_⟩
        · intro r hr
          rcases List.mem_cons.mp hr with hr | hr
          · subst hr; exact hlen
          · exact ih2 r hr
        · subst htr
          subst ih3
          simp

theorem genRows_ok_of (M : RngModel) (size : ℚ) (nc nt : Nat)
    (hsize : 0 < size) :
    ∀ (pairs : List (ℚ × ℚ)) (s : Nat), (∀ q ∈ pairs, 0 < q.1 ∧ 0 < q.2) →
      ∃ rows s2 tr, genRows M size nc nt pairs s = Except.ok (rows, s2, tr) := by
  intro pairs
  induction pairs with
  | nil => intro s _; exact ⟨[], s, [], rfl⟩
  | cons q rest ih =>
    intro s hpos
    obtain ⟨muC, muT⟩ := q
    have hq := hpos (muC, muT) (List.mem_cons_self _ _)
    obtain ⟨v, hv⟩ := genRow_ok_of M nc nt s hsize hq.1 hq.2
    obtain ⟨row, s1, t1⟩ := v
    obtain ⟨rows, s2, tr, hr⟩ :=
      ih s1 (fun q hq2 => hpos q (List.mem_cons_of_mem _ hq2))
    exact ⟨row :: rows, s2, t1 ++ tr, by simp [genRows, hv, hr]⟩

theorem deCountInt_eq_floor (nG : Nat) {dp : ℚ} (h : 0 ≤ dp) :
    deCountInt nG dp = ⌊(nG : ℚ) * dp⌋ := by
  rw [deCountInt, pyInt,
    if_neg (not_lt.mpr (mul_nonneg (by positivity) h))]

theorem deCountInt_nonneg (nG : Nat) {dp : ℚ} (h : 0 ≤ dp) :
    0 ≤ deCountInt nG dp := by
  rw [deCountInt_eq_floor nG h]
  exact Int.floor_nonneg.mpr (mul_nonneg (by positivity) h)

theorem deCountInt_le (nG : Nat) {dp : ℚ} (h0 : 0 ≤ dp) (h1 : dp ≤ 1) :
    (deCountInt nG dp).toNat ≤ nG := by
  rw [deCountInt_eq_floor nG h0]
  have hle : (nG : ℚ) * dp ≤ (nG : ℚ) :=
    mul_le_of_le_one_right (by positivity) h1
  have hfl : ⌊(nG : ℚ) * dp⌋ ≤ (nG : Int) := by
    have := Int.floor_le_floor hle
    rwa [Int.floor_natCast] at this
  omega

theorem sim_ok_spec {M : RngModel} {g0 nG nC nT : Nat} {dp fc disp : ℚ}
    {seed : Int} {gl : Option (List String)} {res : SimResult}
    (h : simulateCounts M g0 nG nC nT dp fc disp seed gl = Except.ok res) :
    computeGenes nG gl = Except.ok res.genes ∧
    res.ctrlSamples = ctrlNames nC ∧
    res.trtSamples = trtNames nT ∧
    0 ≤ deCountInt nG dp ∧
    (deCountInt nG dp).toNat ≤ nG ∧
    res.deIndices = (M.choiceFn (M.seedFn seed) nG (deCountInt nG dp).toNat).1 ∧
    res.muCtrl =
      (drawUniforms M 50 2000 nG
        (M.choiceFn (M.seedFn seed) nG (deCountInt nG dp).toNat).2).1 ∧
    res.muTrt =
      muTrtOf res.muCtrl res.deIndices ((deCountInt nG dp).toNat / 2) fc ∧
    disp ≠ 0 ∧
    (∃ s2 tR,
      genRows M (1 / disp) nC nT (res.muCtrl.zip res.muTrt)
          (drawUniforms M 50 2000 nG
            (M.choiceFn (M.seedFn seed) nG (deCountInt nG dp).toNat).2).2.1 =
        Except.ok (res.counts, s2, tR) ∧
      res.trace =
        RngEvent.choice nG (deCountInt nG dp).toNat ::
          List.replicate nG (RngEvent.uniform 50 2000) ++ tR) ∧
    res.output = serializeTable res.genes (ctrlNames nC ++ trtNames nT)
      res.counts := by
  cases hg : computeGenes nG gl with
  | error e => simp [simulateCounts, hg] at h
  | ok genes =>
    by_cases hguard : 0 ≤ deCountInt nG dp ∧ (deCountInt nG dp).toNat ≤ nG
    · cases hd : pyDiv 1 disp with
      | error e => simp [simulateCounts, hg, hguard, hd] at h
      | ok size =>
        have hdisp : disp ≠ 0 ∧ size = 1 / disp := by
          by_cases hd0 : disp = 0
          · simp [pyDiv, hd0] at hd
          · rw [pyDiv, if_neg hd0] at hd
            injection hd with hd
            exact ⟨hd0, hd.symm⟩
        cases hr : genRows M size nC nT
            (((drawUniforms M 50 2000 nG
                (M.choiceFn (M.seedFn seed) nG (deCountInt nG dp).toNat).2).1).zip
              (muTrtOf
                (drawUniforms M 50 2000 nG
                  (M.choiceFn (M.seedFn seed) nG
                    (deCountInt nG dp).toNat).2).1
                (M.choiceFn (M.seedFn seed) nG (deCountInt nG dp).toNat).1
                ((deCountInt nG dp).toNat / 2) fc))
            (drawUniforms M 50 2000 nG
              (M.choiceFn (M.seedFn seed) nG
                (deCountInt nG dp).toNat).2).2.1 with
        | error e2 =>
          obtain ⟨e, tR⟩ := e2
          simp [simulateCounts, hg, hguard, hd, hr] at h
        | ok w =>
          obtain ⟨rows, s3, tR⟩ := w
          simp only [simulateCounts, hg, if_pos hguard, hd, hr,
            Except.ok.injEq] at h
          subst h
          refine ⟨rfl, rfl, rfl, hguard.1, hguard.2, rfl, rfl, rfl, hdisp.1,
            ⟨s3, tR, ?_, ?_⟩, rfl⟩
          · rw [← hdisp.2]
            exact hr
          · simp [drawUniforms_trace]
    · simp only [Int.toNat_le] at hguard
      simp [simulateCounts, hg, hguard] at h

theorem scaleAt_pos (f : ℚ → ℚ) (hf : ∀ x, 0 < x → 0 < f x) :
    ∀ (idxs : List Nat) (mu : List ℚ), (∀ x ∈ mu, 0 < x) →
      ∀ x ∈ scaleAt mu idxs f, 0 < x := by
  intro idxs
  induction idxs with
  | nil => intro mu hmu x hx; exact hmu x hx
  | cons i rest ih =>
    intro mu hmu x hx
    rw [scaleAt_cons] at hx
    refine ih _ ?_ x hx
    intro y hy
    by_cases hlen : i < mu.length
    · rcases List.mem_or_eq_of_mem_set hy with hy | hy
      · exact hmu y hy
      · subst hy
        have hg : mu.getD i 0 = mu[i] := by
          rw [List.getD_eq_getElem?_getD, List.getElem?_eq_getElem hlen]
          rfl
        rw [hg]
        exact hf _ (hmu _ (List.getElem_mem hlen))
    · rw [List.set_eq_of_length_le (le_of_not_lt hlen)] at hy
      exact hmu y hy

theorem muTrtOf_pos {mu : List ℚ} {de : List Nat} {half : Nat} {fc : ℚ}
    (hfc : 0 < fc) (hmu : ∀ x ∈ mu, 0 < x) :
    ∀ x ∈ muTrtOf mu de half fc, 0 < x := by
  intro x hx
  refine scaleAt_pos _ (fun y hy => div_pos hy hfc) _ _ ?_ x hx
  exact scaleAt_pos _ (fun y hy => mul_pos hy hfc) _ _ hmu

theorem sim_ok_exists {M : RngModel} (g0 : Nat) {nG : Nat} (nC nT : Nat)
    {dp : ℚ} {fc : ℚ} {disp : ℚ} (seed : Int) {gl : Option (List String)}
    {genes : List String}
    (hg : computeGenes nG gl = Except.ok genes)
    (h0 : 0 ≤ deCountInt nG dp) (h1 : (deCountInt nG dp).toNat ≤ nG)
    (hdisp : 0 < disp)
    (hfc : 0 < fc ∨ (deCountInt nG dp).toNat = 0) :
    ∃ res, simulateCounts M g0 nG nC nT dp fc disp seed gl =
      Except.ok res := by
  have hmuC : ∀ x ∈ (drawUniforms M 50 2000 nG
      (M.choiceFn (M.seedFn seed) nG (deCountInt nG dp).toNat).2).1, 0 < x :=
    fun x hx => lt_of_lt_of_le (by norm_num)
      (drawUniforms_mem M 50 2000 (by norm_num) nG _ x hx).1
  have hmuT : ∀ x ∈ muTrtOf
      (drawUniforms M 50 2000 nG
        (M.choiceFn (M.seedFn seed) nG (deCountInt nG dp).toNat).2).1
      (M.choiceFn (M.seedFn seed) nG (deCountInt nG dp).toNat).1
      ((deCountInt nG dp).toNat / 2) fc, 0 < x := by
    rcases hfc with hfc | hfc
    · exact muTrtOf_pos hfc hmuC
    · have hnil : (M.choiceFn (M.seedFn seed) nG
          (deCountInt nG dp).toNat).1 = [] :=
        List.length_eq_zero.mp (by rw [M.choice_length _ _ _ h1]; exact hfc)
      rw [hnil]
      intro x hx
      simp only [muTrtOf, List.take_nil, List.drop_nil, scaleAt_nil] at hx
      exact hmuC x hx
  have hpairs : ∀ q ∈ ((drawUniforms M 50 2000 nG
        (M.choiceFn (M.seedFn seed) nG (deCountInt nG dp).toNat).2).1).zip
      (muTrtOf
        (drawUniforms M 50 2000 nG
          (M.choiceFn (M.seedFn seed) nG (deCountInt nG dp).toNat).2).1
        (M.choiceFn (M.seedFn seed) nG (deCountInt nG dp).toNat).1
        ((deCountInt nG dp).toNat / 2) fc), 0 < q.1 ∧ 0 < q.2 := by
    intro q hq
    obtain ⟨q1, q2⟩ := q
    have hm := List.of_mem_zip hq
    exact ⟨hmuC _ hm.1, hmuT _ hm.2⟩
  obtain ⟨rows, s2, tr, hr⟩ :=
    genRows_ok_of M (1 / disp) nC nT (by positivity) _
      ((drawUniforms M 50 2000 nG
        (M.choiceFn (M.seedFn seed) nG (deCountInt nG dp).toNat).2).2.1)
      hpairs
  rw [one_div] at hr
  cases hx : simulateCounts M g0 nG nC nT dp fc disp seed gl with
  | ok res => exact ⟨res, rfl⟩
  | error e =>
    exfalso
    obtain ⟨e2, tr2⟩ := e
    simp only [simulateCounts, hg, if_pos (And.intro h0 h1)] at hx
    rw [pyDiv, if_neg (ne_of_gt hdisp)] at hx
    simp [hr] at hx

theorem muCtrl_pos_of_ok {M : RngModel} {g0 nG nC nT : Nat} {dp fc disp : ℚ}
    {seed : Int} {gl : Option (List String)} {res : SimResult}
    (h : simulateCounts M g0 nG nC nT dp fc disp seed gl = Except.ok res) :
    ∀ x ∈ res.muCtrl, 0 < x := by
  obtain ⟨-, -, -, -, -, -, hmuC, -⟩ := sim_ok_spec h
  intro x hx
  rw [hmuC] at hx
  exact lt_of_lt_of_le (by norm_num)
    (drawUniforms_mem M 50 2000 (by norm_num) nG _ x hx).1

theorem upDown_counts {M : RngModel} {g0 nG nC nT : Nat} {dp fc disp : ℚ}
    {seed : Int} {gl : Option (List String)} {res : SimResult}
    (h : simulateCounts M g0 nG nC nT dp fc disp seed gl = Except.ok res)
    (hfc : 1 < fc) :
    (List.range nG).countP
        (fun g => decide (res.muCtrl.getD g 0 < res.muTrt.getD g 0)) =
      (deCountInt nG dp).toNat / 2 ∧
    (List.range nG).countP
        (fun g => decide (res.muTrt.getD g 0 < res.muCtrl.getD g 0)) =
      (deCountInt nG dp).toNat - (deCountInt nG dp).toNat / 2 ∧
    ∀ g < nG, g ∉ res.deIndices →
      res.muTrt.getD g 0 = res.muCtrl.getD g 0 := by
  obtain ⟨-, -, -, -, h1, hde, hmuC, hmuT, -⟩ := sim_ok_spec h
  have hlen : res.muCtrl.length = nG := by
    rw [hmuC]; exact drawUniforms_length M 50 2000 nG _
  have hnd : res.deIndices.Nodup := by
    rw [hde]; exact M.choice_nodup _ _ _ h1
  have hdel : res.deIndices.length = (deCountInt nG dp).toNat := by
    rw [hde]; exact M.choice_length _ _ _ h1
  have hdlt : ∀ i ∈ res.deIndices, i < nG := by
    rw [hde]; exact M.choice_lt _ _ _ h1
  have hsplit : res.deIndices.take ((deCountInt nG dp).toNat / 2) ++
      res.deIndices.drop ((deCountInt nG dp).toNat / 2) = res.deIndices :=
    List.take_append_drop _ _
  have hdisj : (res.deIndices.take ((deCountInt nG dp).toNat / 2)).Disjoint
      (res.deIndices.drop ((deCountInt nG dp).toNat / 2)) :=
    (List.nodup_append.mp (hsplit.symm ▸ hnd)).2.2
  have hpos : ∀ g, g < nG → 0 < res.muCtrl.getD g 0 := by
    intro g hgn
    have hgl : g < res.muCtrl.length := hlen ▸ hgn
    have hmem : res.muCtrl.getD g 0 ∈ res.muCtrl := by
      rw [List.getD_eq_getElem?_getD, List.getElem?_eq_getElem hgl]
      exact List.getElem_mem hgl
    exact muCtrl_pos_of_ok h _ hmem
  have hchar : ∀ g, g < nG →
      res.muTrt.getD g 0 =
        if g ∈ res.deIndices.take ((deCountInt nG dp).toNat / 2) then
          res.muCtrl.getD g 0 * fc
        else if g ∈ res.deIndices.drop ((deCountInt nG dp).toNat / 2) then
          res.muCtrl.getD g 0 / fc
        else res.muCtrl.getD g 0 := by
    intro g hgn
    rw [hmuT]
    exact muTrtOf_getD _ _ _ _ hnd g (hlen ▸ hgn)
  refine ⟨?_, ?_, ?_⟩
  · rw [List.countP_congr (q := fun g =>
      decide (g ∈ res.deIndices.take ((deCountInt nG dp).toNat / 2)))]
    · rw [countP_range_of_nodup _ nG
        (hnd.sublist (List.take_sublist _ _))
        (fun x hx => hdlt x (List.take_subset _ _ hx))]
      rw [List.length_take, hdel]
      exact min_eq_left (Nat.div_le_self _ 2)
    · intro g hgr
      have hgn := List.mem_range.mp hgr
      have hmu0 := hpos g hgn
      simp only [decide_eq_true_eq]
      rw [hchar g hgn]
      by_cases ht : g ∈ res.deIndices.take ((deCountInt nG dp).toNat / 2)
      · rw [if_pos ht]
        exact ⟨fun _ => ht, fun _ => (lt_mul_iff_one_lt_right hmu0).mpr hfc⟩
      · by_cases hd : g ∈ res.deIndices.drop ((deCountInt nG dp).toNat / 2)
        · rw [if_neg ht, if_pos hd]
          exact ⟨fun hlt => absurd hlt
              (not_lt.mpr (le_of_lt (div_lt_self hmu0 hfc))),
            fun hc => absurd hc ht⟩
        · rw [if_neg ht, if_neg hd]
          exact ⟨fun hlt => absurd hlt (lt_irrefl _), fun hc => absurd hc ht⟩
  · rw [List.countP_congr (q := fun g =>
      decide (g ∈ res.deIndices.drop ((deCountInt nG dp).toNat / 2)))]
    · rw [countP_range_of_nodup _ nG
        (hnd.sublist (List.drop_sublist _ _))
        (fun x hx => hdlt x (List.drop_subset _ _ hx))]
      rw [List.length_drop, hdel]
    · intro g hgr
      have hgn := List.mem_range.mp hgr
      have hmu0 := hpos g hgn
      simp only [decide_eq_true_eq]
      rw [hchar g hgn]
      by_cases ht : g ∈ res.deIndices.take ((deCountInt nG dp).toNat / 2)
      · have hd : g ∉ res.deIndices.drop ((deCountInt nG dp).toNat / 2) :=
          hdisj ht
        rw [if_pos ht]
        exact ⟨fun hlt => absurd hlt
            (not_lt.mpr (le_of_lt ((lt_mul_iff_one_lt_right hmu0).mpr hfc))),
          fun hc => absurd hc hd⟩
      · by_cases hd : g ∈ res.deIndices.drop ((deCountInt nG dp).toNat / 2)
        · rw [if_neg ht, if_pos hd]
          exact ⟨fun _ => hd, fun _ => div_lt_self hmu0 hfc⟩
        · rw [if_neg ht, if_neg hd]
          exact ⟨fun hlt => absurd hlt (lt_irrefl _), fun hc => absurd hc hd⟩
  · intro g hgn hgde
    rw [hchar g hgn,
      if_neg (fun hc => hgde (List.take_subset _ _ hc)),
      if_neg (fun hc => hgde (List.drop_subset _ _ hc))]

theorem runA_eval :
    simulateCounts demoModel 0 3 1 1 1 2 1 0 none = Except.ok resA := by
  norm_num [simulateCounts, computeGenes, pyTruthy, defaultGeneNames,
    ctrlNames, trtNames, deCountInt, pyInt, drawUniforms, demoModel,
    muTrtOf, scaleAt, pyDiv, genRows, genRow, npDiv, drawNegBinoms,
    drawNegBinomList, serializeTable, nbErrMsg, List.range_succ, resA,
    List.foldl_cons, List.foldl_nil, List.set, List.take_succ_cons,
    List.take_zero, List.drop, List.getElem?_cons_zero,
    List.getElem?_cons_succ, Option.getD,
    show Int.toNat 0 = 0 from rfl, show Int.toNat 1 = 1 from rfl,
    show Int.toNat 3 = 3 from rfl]
  all_goals decide

theorem runB_eval :
    simulateCounts demoModel 0 1 1 1 0 2 1 0 none = Except.ok resB := by
  norm_num [simulateCounts, computeGenes, pyTruthy, defaultGeneNames,
    ctrlNames, trtNames, deCountInt, pyInt, drawUniforms, demoModel,
    muTrtOf, scaleAt, pyDiv, genRows, genRow, npDiv, drawNegBinoms,
    drawNegBinomList, serializeTable, nbErrMsg, List.range_succ, resB,
    List.foldl_cons, List.foldl_nil, List.set, List.take_succ_cons,
    List.take_zero, List.drop, List.getElem?_cons_zero,
    List.getElem?_cons_succ, Option.getD,
    show Int.toNat 0 = 0 from rfl, show Int.toNat 1 = 1 from rfl,
    show Int.toNat 3 = 3 from rfl]
  all_goals decide

theorem runB2_eval :
    simulateCounts demoModel 0 1 1 1 0 2 1 0 (some []) = Except.ok resB := by
  norm_num [simulateCounts, computeGenes, pyTruthy, defaultGeneNames,
    ctrlNames, trtNames, deCountInt, pyInt, drawUniforms, demoModel,
    muTrtOf, scaleAt, pyDiv, genRows, genRow, npDiv, drawNegBinoms,
    drawNegBinomList, serializeTable, nbErrMsg, List.range_succ, resB,
    List.foldl_cons, List.foldl_nil, List.set, List.take_succ_cons,
    List.take_zero, List.drop, List.getElem?_cons_zero,
    List.getElem?_cons_succ, Option.getD,
    show Int.toNat 0 = 0 from rfl, show Int.toNat 1 = 1 from rfl,
    show Int.toNat 3 = 3 from rfl]
  all_goals decide

/-- C1 counterexample: in the run `simulate_counts(3, 1, 1, 1.0, 2.0, 1.0, 0)`
the DE subset has odd size 3, yet only 1 gene is upregulated
(`muControl < muTreatment`) while 2 are downregulated: the number of
upregulated genes does not exceed the number of downregulated ones by one,
so the extra index goes to the downregulated half, not the upregulated
half. -/
theorem c1_upregulated_extra_false :
    simulateCounts demoModel 0 3 1 1 1 2 1 0 none = Except.ok resA ∧
    (deCountInt 3 1).toNat % 2 = 1 ∧
    (List.range 3).countP
        (fun g => decide (resA.muCtrl.getD g 0 < resA.muTrt.getD g 0)) = 1 ∧
    (List.range 3).countP
        (fun g => decide (resA.muTrt.getD g 0 < resA.muCtrl.getD g 0)) = 2 ∧
    (List.range 3).countP
        (fun g => decide (resA.muCtrl.getD g 0 < resA.muTrt.getD g 0)) ≠
      (List.range 3).countP
        (fun g => decide (resA.muTrt.getD g 0 < resA.muCtrl.getD g 0)) + 1 := by
  refine ⟨runA_eval,
    by norm_num [deCountInt, pyInt, show Int.toNat 3 = 3 from rfl],
    ?_, ?_, ?_⟩ <;>
  norm_num [resA, List.range_succ, List.countP_cons, List.countP_nil,
    List.getD_eq_getElem?_getD, List.getElem?_cons_zero,
    List.getElem?_cons_succ, Option.getD]

/-- C1 (amended): when `deCount = int(geneCount * deProportion)` is odd, the
extra index goes to the DOWNREGULATED half (`half = deCount // 2` genes are
upregulated, `deCount - half` downregulated), so on every successful run
with `foldChange > 1` the number of downregulated genes exceeds the number
of upregulated genes by one. -/
theorem c1_downregulated_gets_extra {M : RngModel} {g0 nG nC nT : Nat}
    {dp fc disp : ℚ} {seed : Int} {gl : Option (List String)}
    {res : SimResult}
    (h : simulateCounts M g0 nG nC nT dp fc disp seed gl = Except.ok res)
    (hfc : 1 < fc) (hodd : (deCountInt nG dp).toNat % 2 = 1) :
    (List.range nG).countP
        (fun g => decide (res.muTrt.getD g 0 < res.muCtrl.getD g 0)) =
      (List.range nG).countP
        (fun g => decide (res.muCtrl.getD g 0 < res.muTrt.getD g 0)) + 1 := by
  obtain ⟨hup, hdown, -⟩ := upDown_counts h hfc
  rw [hup, hdown]
  omega

/-- C1 witness: the amended statement at the concrete run with
`geneCount = 3`, `deProportion = 1`, `foldChange = 2`. -/
theorem c1_down_extra_witness :
    (List.range 3).countP
        (fun g => decide (resA.muTrt.getD g 0 < resA.muCtrl.getD g 0)) =
      (List.range 3).countP
        (fun g => decide (resA.muCtrl.getD g 0 < resA.muTrt.getD g 0)) + 1 :=
  c1_downregulated_gets_extra runA_eval (by norm_num)
    (by norm_num [deCountInt, pyInt, show Int.toNat 3 = 3 from rfl])

/-- C4: the generator is a deterministic function of its parameters.  The
pseudo-random generator is seeded exactly once per invocation from `seed`
(`np.random.seed(seed)` is the first statement), so the result — including
the serialized output table — does not depend on the pre-existing global
generator state: two independent runs with the same parameters produce
identical results and byte-identical output tables. -/
theorem c4_deterministic_output (M : RngModel) (g1 g2 nG nC nT : Nat)
    (dp fc disp : ℚ) (seed : Int) (gl : Option (List String)) :
    simulateCounts M g1 nG nC nT dp fc disp seed gl =
      simulateCounts M g2 nG nC nT dp fc disp seed gl ∧
    Except.map SimResult.output
        (simulateCounts M g1 nG nC nT dp fc disp seed gl) =
      Except.map SimResult.output
        (simulateCounts M g2 nG nC nT dp fc disp seed gl) :=
  ⟨rfl, rfl⟩

/-- C5: on every successful run with `foldChange > 1` and
`deProportion >= 0`, exactly `floor(geneCount * deProportion) // 2` genes
are upregulated (`muTreatment > muControl`), exactly
`deCount - deCount // 2` genes are downregulated
(`muTreatment < muControl`), and every gene outside the selected DE subset
keeps `muTreatment == muControl`. -/
theorem c5_directionality {M : RngModel} {g0 nG nC nT : Nat}
    {dp fc disp : ℚ} {seed : Int} {gl : Option (List String)}
    {res : SimResult}
    (h : simulateCounts M g0 nG nC nT dp fc disp seed gl = Except.ok res)
    (hdp : 0 ≤ dp) (hfc : 1 < fc) :
    (List.range nG).countP
        (fun g => decide (res.muCtrl.getD g 0 < res.muTrt.getD g 0)) =
      (⌊(nG : ℚ) * dp⌋).toNat / 2 ∧
    (List.range nG).countP
        (fun g => decide (res.muTrt.getD g 0 < res.muCtrl.getD g 0)) =
      (⌊(nG : ℚ) * dp⌋).toNat - (⌊(nG : ℚ) * dp⌋).toNat / 2 ∧
    ∀ g < nG, g ∉ res.deIndices →
      res.muTrt.getD g 0 = res.muCtrl.getD g 0 := by
  rw [← deCountInt_eq_floor nG hdp]
  exact upDown_counts h hfc

/-- C5 witness: the directionality counts at the concrete run with
`geneCount = 3`, `deProportion = 1`, `foldChange = 2`: 1 upregulated,
2 downregulated, non-DE genes (none here) unchanged. -/
theorem c5_directionality_witness :
    (List.range 3).countP
        (fun g => decide (resA.muCtrl.getD g 0 < resA.muTrt.getD g 0)) = 1 ∧
    (List.range 3).countP
        (fun g => decide (resA.muTrt.getD g 0 < resA.muCtrl.getD g 0)) = 2 ∧
    ∀ g < 3, g ∉ resA.deIndices →
      resA.muTrt.getD g 0 = resA.muCtrl.getD g 0 := by
  have h := c5_directionality runA_eval (by norm_num) (by norm_num)
  have h1 : ((⌊((3 : Nat) : ℚ) * 1⌋).toNat / 2 : Nat) = 1 := by
    norm_num [show Int.toNat 3 = 3 from rfl]
  have h2 : ((⌊((3 : Nat) : ℚ) * 1⌋).toNat -
      (⌊((3 : Nat) : ℚ) * 1⌋).toNat / 2 : Nat) = 2 := by
    norm_num [show Int.toNat 3 = 3 from rfl]
  exact ⟨h.1.trans h1, h.2.1.trans h2, h.2.2⟩

/-- C6: on every successful run with `geneCount > 0` and
`deProportion ∈ [0, 1]`, the number of selected DE indices equals the
mathematical floor of `geneCount * deProportion` (exact rational product),
and the selected indices are distinct and drawn from `[0, geneCount)`. -/
theorem c6_de_count_floor {M : RngModel} {g0 nG nC nT : Nat}
    {dp fc disp : ℚ} {seed : Int} {gl : Option (List String)}
    {res : SimResult}
    (h : simulateCounts M g0 nG nC nT dp fc disp seed gl = Except.ok res)
    (_hn : 0 < nG) (h0 : 0 ≤ dp) (_h1 : dp ≤ 1) :
    (res.deIndices.length : Int) = ⌊(nG : ℚ) * dp⌋ ∧
    res.deIndices.Nodup ∧ ∀ i ∈ res.deIndices, i < nG := by
  obtain ⟨-, -, -, hga, hgb, hde, -⟩ := sim_ok_spec h
  refine ⟨?_, by rw [hde]; exact M.choice_nodup _ _ _ hgb,
    by rw [hde]; exact M.choice_lt _ _ _ hgb⟩
  rw [hde, M.choice_length _ _ _ hgb, ← deCountInt_eq_floor nG h0]
  exact Int.toNat_of_nonneg hga

/-- C6 witness: at the concrete run with `geneCount = 3`,
`deProportion = 1`, exactly 3 distinct indices below 3 are selected. -/
theorem c6_de_count_floor_witness :
    (resA.deIndices.length : Int) = 3 ∧
    resA.deIndices.Nodup ∧ ∀ i ∈ resA.deIndices, i < 3 := by
  have h := c6_de_count_floor runA_eval (by norm_num) (by norm_num)
    (by norm_num)
  exact ⟨h.1.trans (by norm_num), h.2.1, h.2.2⟩

/-- C2 counterexample: with `dispersion = 1 > 0` but `foldChange = -2`
(which makes the treatment mean of the DE gene `-25 <= 0`), the run
`simulate_counts(2, 1, 1, 0.5, -2.0, 1.0, 0)` does NOT fail with a
configuration error before sampling: the failure is a `ValueError` from
the sampler raised mid-loop, after the DE selection, both baseline draws,
and one negative-binomial count draw (the control column of gene 0) have
already been consumed. -/
theorem c2_counts_drawn_before_failure :
    simulateCounts demoModel 0 2 1 1 (1 / 2) (-2) 1 0 none =
      Except.error (GenError.valueError nbErrMsg,
        [RngEvent.choice 2 1, RngEvent.uniform 50 2000,
         RngEvent.uniform 50 2000, RngEvent.negBinom 1 (1 / 51)]) ∧
    RngEvent.negBinom 1 (1 / 51) ∈
      [RngEvent.choice 2 1, RngEvent.uniform 50 2000,
       RngEvent.uniform 50 2000, RngEvent.negBinom 1 (1 / 51)] := by
  constructor
  · norm_num [simulateCounts, computeGenes, pyTruthy, defaultGeneNames,
      ctrlNames, trtNames, deCountInt, pyInt, drawUniforms, demoModel,
      muTrtOf, scaleAt, pyDiv, genRows, genRow, npDiv, drawNegBinoms,
      drawNegBinomList, nbErrMsg, List.range_succ,
      List.foldl_cons, List.foldl_nil, List.set, List.take_succ_cons,
      List.take_zero, List.drop, List.getElem?_cons_zero,
      List.getElem?_cons_succ, Option.getD,
      show Int.toNat 1 = 1 from rfl]
  · simp

/-- C2 (amended): the generator performs no up-front validation of
`dispersion` or the means.  With `dispersion = 0`, the failure is a
`ZeroDivisionError` at `size = 1.0 / dispersion` — raised only after the
DE-selection draw and all `geneCount` baseline-mean draws have been
consumed (though before any count draw); with `dispersion < 0` or a
non-positive mean the failure is a `ValueError` from the negative-binomial
sampler mid-loop, possibly after counts for earlier genes were drawn. -/
theorem c2_dispersion_zero_fails_late (M : RngModel) (g0 : Nat) {nG : Nat}
    (nC nT : Nat) {dp : ℚ} (fc : ℚ) (seed : Int) {gl : Option (List String)}
    {genes : List String}
    (hg : computeGenes nG gl = Except.ok genes)
    (h0 : 0 ≤ dp) (h1 : dp ≤ 1) :
    simulateCounts M g0 nG nC nT dp fc 0 seed gl =
      Except.error (GenError.zeroDivisionError,
        RngEvent.choice nG (deCountInt nG dp).toNat ::
          List.replicate nG (RngEvent.uniform 50 2000)) := by
  have hga := deCountInt_nonneg nG h0
  have hgb := deCountInt_le nG h0 h1
  simp only [simulateCounts, hg, if_pos (And.intro hga hgb)]
  rw [show pyDiv 1 0 = Except.error GenError.zeroDivisionError from by
    rw [pyDiv, if_pos rfl]]
  simp [drawUniforms_trace]

/-- C2 witness: the amended statement at the concrete run
`simulate_counts(1, 1, 1, 0.0, 2.0, 0.0, 0)`: ZeroDivisionError after the
selection and the baseline draw. -/
theorem c2_dispersion_zero_witness :
    simulateCounts demoModel 0 1 1 1 0 2 0 0 none =
      Except.error (GenError.zeroDivisionError,
        [RngEvent.choice 1 0, RngEvent.uniform 50 2000]) := by
  have h := c2_dispersion_zero_fails_late demoModel 0 1 1 2 0
    (show computeGenes 1 none = Except.ok ["gene_1"] from rfl)
    (le_refl 0) (by norm_num)
  exact h.trans (by norm_num [deCountInt, pyInt,
    (show Int.toNat 0 = 0 from rfl), List.replicate])

/-- C3 counterexample: an empty supplied gene-name list has fewer entries
(0) than `geneCount = 1`, yet the run does not fail: Python truthiness of
the empty list skips the length check and the run completes with the
synthetic name `gene_1`. -/
theorem c3_empty_list_bypasses_check :
    simulateCounts demoModel 0 1 1 1 0 2 1 0 (some []) = Except.ok resB ∧
    resB.genes = ["gene_1"] :=
  ⟨runB2_eval, rfl⟩

/-- C3 (amended): for every supplied NON-EMPTY gene-name sequence with
fewer than `geneCount` entries, the run fails with the `ValueError` whose
message names the available and required counts, with an empty consumed
trace (the failure precedes every random draw) and no output produced. -/
theorem c3_short_list_fails_fast (M : RngModel) (g0 nG nC nT : Nat)
    (dp fc disp : ℚ) (seed : Int) (l : List String)
    (hne : l ≠ []) (hlt : l.length < nG) :
    simulateCounts M g0 nG nC nT dp fc disp seed (some l) =
      Except.error (GenError.valueError (geneListMsg l.length nG), []) := by
  have ht : pyTruthy (some l) = true := by
    simp [pyTruthy, List.isEmpty_iff, hne]
  simp [simulateCounts, computeGenes, ht, hlt]

/-- C3 witness: a 1-element list with `geneCount = 2` fails immediately
with the message naming 1 available versus 2 required, before any draw. -/
theorem c3_short_list_witness :
    simulateCounts demoModel 0 2 1 1 0 2 1 0 (some ["g1"]) =
      Except.error (GenError.valueError
        "Gene list contains only 1 names, fewer than n_genes=2.", []) :=
  (c3_short_list_fails_fast demoModel 0 2 1 1 0 2 1 0 ["g1"]
    (by decide) (by decide)).trans (by rfl)

/-- C7: on every successful run the single random stream is consumed in
exactly this order: first the one DE-subset selection draw, then
`geneCount` uniform baseline draws over `[50, 2000]`, then the
count-matrix draws in gene-major order, each gene drawing all
`controlCount` control columns (with `p = size / (size + muControl[g])`)
before all `treatmentCount` treatment columns. -/
theorem c7_draw_order {M : RngModel} {g0 nG nC nT : Nat}
    {dp fc disp : ℚ} {seed : Int} {gl : Option (List String)}
    {res : SimResult}
    (h : simulateCounts M g0 nG nC nT dp fc disp seed gl = Except.ok res) :
    res.muCtrl.length = nG ∧
    res.trace =
      RngEvent.choice nG (deCountInt nG dp).toNat ::
        List.replicate nG (RngEvent.uniform 50 2000) ++
        ((res.muCtrl.zip res.muTrt).map (fun q =>
          List.replicate nC
            (RngEvent.negBinom (1 / disp)
              ((1 / disp) / ((1 / disp) + q.1))) ++
          List.replicate nT
            (RngEvent.negBinom (1 / disp)
              ((1 / disp) / ((1 / disp) + q.2))))).flatten := by
  obtain ⟨-, -, -, -, -, -, hmuC, -, -, hgr, -⟩ := sim_ok_spec h
  obtain ⟨s2, tR, hrows, htrace⟩ := hgr
  obtain ⟨-, -, htr⟩ := genRows_ok hrows
  subst htr
  exact ⟨by rw [hmuC]; exact drawUniforms_length M 50 2000 nG _, htrace⟩

/-- C7 witness: the full consumed trace of the concrete run with
`geneCount = 3`, one control and one treatment sample: selection, three
uniforms, then per gene one control draw followed by one treatment
draw. -/
theorem c7_draw_order_witness :
    resA.muCtrl.length = 3 ∧
    resA.trace = [RngEvent.choice 3 3, RngEvent.uniform 50 2000,
      RngEvent.uniform 50 2000, RngEvent.uniform 50 2000,
      RngEvent.negBinom 1 (1 / 51), RngEvent.negBinom 1 (1 / 101),
      RngEvent.negBinom 1 (1 / 51), RngEvent.negBinom 1 (1 / 26),
      RngEvent.negBinom 1 (1 / 51), RngEvent.negBinom 1 (1 / 26)] := by
  have h := c7_draw_order runA_eval
  refine ⟨h.1, h.2.trans ?_⟩
  norm_num [resA, deCountInt, pyInt, show Int.toNat 3 = 3 from rfl,
    List.replicate, List.zip_cons_cons]

/-- C8: on every successful run the output table has exactly `geneCount`
data rows, each with `controlCount + treatmentCount` counts, the column
identifiers are exactly `ctrl_1..ctrl_k` in order followed by
`trt_1..trt_m` in order, and the serialized output is the tab-separated
table over those genes, columns and counts. -/
theorem c8_shape_and_columns {M : RngModel} {g0 nG nC nT : Nat}
    {dp fc disp : ℚ} {seed : Int} {gl : Option (List String)}
    {res : SimResult}
    (h : simulateCounts M g0 nG nC nT dp fc disp seed gl = Except.ok res) :
    res.counts.length = nG ∧
    (∀ row ∈ res.counts, row.length = nC + nT) ∧
    res.ctrlSamples =
      (List.range nC).map (fun i => "ctrl_" ++ toString (i + 1)) ∧
    res.trtSamples =
      (List.range nT).map (fun i => "trt_" ++ toString (i + 1)) ∧
    res.output = serializeTable res.genes
      (res.ctrlSamples ++ res.trtSamples) res.counts := by
  obtain ⟨-, hcs, hts, -, -, -, hmuC, hmuT, -, hgr, hout⟩ := sim_ok_spec h
  obtain ⟨s2, tR, hrows, -⟩ := hgr
  obtain ⟨hrl, hrlen, -⟩ := genRows_ok hrows
  have hlc : res.muCtrl.length = nG := by
    rw [hmuC]; exact drawUniforms_length M 50 2000 nG _
  have hlt2 : res.muTrt.length = nG := by
    rw [hmuT, muTrtOf_length, hlc]
  refine ⟨?_, hrlen, hcs.trans rfl, hts.trans rfl, ?_⟩
  · rw [hrl, List.length_zip, hlc, hlt2, min_self]
  · rw [hout, hcs, hts]

/-- C8 witness: the concrete run with `geneCount = 3`, one control and one
treatment sample: 3 rows of 2 counts, columns `ctrl_1` then `trt_1`. -/
theorem c8_shape_witness :
    resA.counts.length = 3 ∧
    (∀ row ∈ resA.counts, row.length = 1 + 1) ∧
    resA.ctrlSamples = ["ctrl_1"] ∧
    resA.trtSamples = ["trt_1"] ∧
    resA.output = serializeTable resA.genes
      (resA.ctrlSamples ++ resA.trtSamples) resA.counts := by
  have h := c8_shape_and_columns runA_eval
  exact ⟨h.1, h.2.1, h.2.2.1.trans (by decide), h.2.2.2.1.trans (by decide),
    h.2.2.2.2⟩

/-- C9: with otherwise valid parameters (valid gene names,
`deProportion ∈ [0, 1]`, `dispersion > 0`): if
`deCount = int(geneCount * deProportion)` is 0 the generation completes
without error and `muTreatment == muControl` for every gene; and if
`deProportion = 1` then on every successful run every gene index below
`geneCount` is in the selected DE subset. -/
theorem c9_edge_cases {M : RngModel} (g0 : Nat) {nG : Nat} (nC nT : Nat)
    {dp : ℚ} (fc : ℚ) {disp : ℚ} (seed : Int) {gl : Option (List String)}
    {genes : List String}
    (hg : computeGenes nG gl = Except.ok genes)
    (h0 : 0 ≤ dp) (h1 : dp ≤ 1) (hdisp : 0 < disp) :
    ((deCountInt nG dp).toNat = 0 →
      ∃ res, simulateCounts M g0 nG nC nT dp fc disp seed gl =
          Except.ok res ∧
        res.muTrt = res.muCtrl) ∧
    (dp = 1 → ∀ res,
      simulateCounts M g0 nG nC nT dp fc disp seed gl = Except.ok res →
      ∀ g < nG, g ∈ res.deIndices) := by
  constructor
  · intro hz
    obtain ⟨res, hres⟩ := sim_ok_exists g0 nC nT seed hg
      (deCountInt_nonneg nG h0) (deCountInt_le nG h0 h1) hdisp (Or.inr hz)
    refine ⟨res, hres, ?_⟩
    obtain ⟨-, -, -, -, hgb, hde, hmuC, hmuT, -⟩ := sim_ok_spec hres
    have hnil : res.deIndices = [] := by
      rw [hde]
      exact List.length_eq_zero.mp
        (by rw [M.choice_length _ _ _ hgb]; exact hz)
    rw [hmuT, hnil]
    simp [muTrtOf, scaleAt_nil]
  · intro hdp1 res hres g hgn
    obtain ⟨-, -, -, -, hgb, hde, -⟩ := sim_ok_spec hres
    have hnd : res.deIndices.Nodup := by
      rw [hde]; exact M.choice_nodup _ _ _ hgb
    have hdlt : ∀ i ∈ res.deIndices, i < nG := by
      rw [hde]; exact M.choice_lt _ _ _ hgb
    have hlen : res.deIndices.length = nG := by
      rw [hde, M.choice_length _ _ _ hgb]
      subst hdp1
      rw [deCountInt_eq_floor nG (by norm_num)]
      simp
    have hsub : res.deIndices.toFinset ⊆ Finset.range nG := by
      intro x hx
      rw [List.mem_toFinset] at hx
      exact Finset.mem_range.mpr (hdlt x hx)
    have hcard : (Finset.range nG).card ≤ res.deIndices.toFinset.card := by
      rw [List.toFinset_card_of_nodup hnd, hlen, Finset.card_range]
    have heq : res.deIndices.toFinset = Finset.range nG :=
      Finset.eq_of_subset_of_card_le hsub hcard
    have hmem : g ∈ res.deIndices.toFinset := by
      rw [heq]; exact Finset.mem_range.mpr hgn
    exact List.mem_toFinset.mp hmem

/-- C9 witness: part one at `geneCount = 1, deProportion = 0` (run
succeeds with equal mean vectors), part two at
`geneCount = 3, deProportion = 1` (all three genes selected). -/
theorem c9_edge_cases_witness :
    (simulateCounts demoModel 0 1 1 1 0 2 1 0 none = Except.ok resB ∧
      resB.muTrt = resB.muCtrl) ∧
    (∀ g < 3, g ∈ resA.deIndices) := by
  constructor
  · have hc := (c9_edge_cases (M := demoModel) 0 1 1 2 0
      (show computeGenes 1 none = Except.ok ["gene_1"] from rfl)
      (le_refl 0) (show (0 : ℚ) ≤ 1 from by norm_num)
      (show (0 : ℚ) < 1 from by norm_num)).1
      (by norm_num [deCountInt, pyInt, show Int.toNat 0 = 0 from rfl])
    obtain ⟨res, hres, hmu⟩ := hc
    have hrr : Except.ok res = Except.ok resB := hres.symm.trans runB_eval
    injection hrr with hr
    subst hr
    exact ⟨runB_eval, hmu⟩
  · intro g hg
    exact (c9_edge_cases (M := demoModel) 0 1 1 2 0
      (show computeGenes 3 none =
        Except.ok ["gene_1", "gene_2", "gene_3"] from rfl)
      (show (0 : ℚ) ≤ 1 from by norm_num) (le_refl 1)
      (show (0 : ℚ) < 1 from by norm_num)).2 rfl resA runA_eval g hg

/-- C10: a supplied EMPTY gene-name sequence is falsy in Python, so the
insufficient-gene-list check is skipped entirely: `simulate_counts` with
an empty list behaves exactly like a run with no list at all, silently
proceeding with the synthetic names `gene_1..gene_{geneCount}`. -/
theorem c10_empty_gene_list_truthiness (M : RngModel) (g0 nG nC nT : Nat)
    (dp fc disp : ℚ) (seed : Int) (_hn : 0 < nG) :
    computeGenes nG (some []) = Except.ok (defaultGeneNames nG) ∧
    simulateCounts M g0 nG nC nT dp fc disp seed (some []) =
      simulateCounts M g0 nG nC nT dp fc disp seed none :=
  ⟨rfl, rfl⟩

/-- C10 witness: the empty-list run at `geneCount = 1` coincides with the
no-list run and uses the synthetic name. -/
theorem c10_empty_gene_list_witness :
    computeGenes 1 (some []) = Except.ok (defaultGeneNames 1) ∧
    simulateCounts demoModel 0 1 1 1 0 2 1 0 (some []) =
      simulateCounts demoModel 0 1 1 1 0 2 1 0 none :=
  c10_empty_gene_list_truthiness demoModel 0 1 1 1 0 2 1 0 (by decide)
